import Mathlib

/-!
Verification development for the pay-scale module `src/abakus/model.py` of
pyAbakus: the step catalogue (`Stufe`), positions (`Stelle`) with the
date-driven advancement projection `Stelle.am`, and the salary ledger
(`ÖtvKosten`).  Python `datetime.date` values are embedded as explicit
year/month/day triples with the proleptic-Gregorian validity check and the
lexicographic comparison that `datetime.date` implements; `Decimal` values
are embedded as exact rationals.
-/

/-- Embedding of Python `datetime.date`: a year/month/day triple.
Validity (`Date.valid`) is tracked separately, mirroring the fact that the
`date` constructor raises `ValueError` on out-of-range components. -/
structure Date where
  year : Nat
  month : Nat
  day : Nat
deriving DecidableEq, Repr

/-- `datetime.date` comparison `<=`: lexicographic on (year, month, day). -/
def Date.le (a b : Date) : Prop :=
  a.year < b.year ∨ (a.year = b.year ∧
    (a.month < b.month ∨ (a.month = b.month ∧ a.day ≤ b.day)))

instance (a b : Date) : Decidable (Date.le a b) := by
  unfold Date.le; exact inferInstance

/-- `datetime.date` comparison `<`: lexicographic on (year, month, day). -/
def Date.lt (a b : Date) : Prop :=
  a.year < b.year ∨ (a.year = b.year ∧
    (a.month < b.month ∨ (a.month = b.month ∧ a.day < b.day)))

instance (a b : Date) : Decidable (Date.lt a b) := by
  unfold Date.lt; exact inferInstance

/-- Gregorian leap-year rule, as used by `datetime.date`. -/
def isLeap (y : Nat) : Prop := y % 4 = 0 ∧ (y % 100 ≠ 0 ∨ y % 400 = 0)

instance (y : Nat) : Decidable (isLeap y) := by
  unfold isLeap; exact inferInstance

/-- Number of days of month `m` in year `y` (Gregorian calendar). -/
def daysInMonth (y m : Nat) : Nat :=
  if m = 2 then (if isLeap y then 29 else 28)
  else if m = 4 ∨ m = 6 ∨ m = 9 ∨ m = 11 then 30
  else 31

/-- The component ranges `datetime.date(year, month, day)` accepts:
`MINYEAR = 1 <= year <= MAXYEAR = 9999`, `1 <= month <= 12`, and
`1 <= day <=` length of that month in that year. -/
def Date.valid (d : Date) : Prop :=
  1 ≤ d.year ∧ d.year ≤ 9999 ∧ 1 ≤ d.month ∧ d.month ≤ 12 ∧
    1 ≤ d.day ∧ d.day ≤ daysInMonth d.year d.month

instance (d : Date) : Decidable (Date.valid d) := by
  unfold Date.valid; exact inferInstance

/-- The `datetime.date(y, m, d)` constructor: `some` on a valid triple,
`none` where Python raises `ValueError`. -/
def mkDate (y m d : Nat) : Option Date :=
  if Date.valid ⟨y, m, d⟩ then some ⟨y, m, d⟩ else none

/-- The enum `Stufe` with members `eins = 1` … `sechs = 6`. -/
inductive Stufe where
  | eins | zwei | drei | vier | fuenf | sechs
deriving DecidableEq, Repr, Fintype

/-- The integer value of each `Stufe` enum member (`self.value`). -/
def Stufe.value : Stufe → Nat
  | eins => 1
  | zwei => 2
  | drei => 3
  | vier => 4
  | fuenf => 5
  | sechs => 6

/-- `Stufe.__init__` stores the member's value as `self.jahre`, the
advancement interval in years. -/
def Stufe.jahre (s : Stufe) : Nat := s.value

/-- `Stufe.naechste`: `Stufe(self.value + 1) if self.value < Stufe.sechs.value
else self`, tabulated over the six members. -/
def Stufe.naechste : Stufe → Stufe
  | eins => zwei
  | zwei => drei
  | drei => vier
  | vier => fuenf
  | fuenf => sechs
  | sechs => sechs

/-- `Stufe.naechsterAufstieg`: `date(letzterAufstieg.year + self.jahre,
letzterAufstieg.month, letzterAufstieg.day)`; `none` where the `date`
constructor raises. -/
def Stufe.naechsterAufstieg (s : Stufe) (letzterAufstieg : Date) : Option Date :=
  mkDate (letzterAufstieg.year + s.jahre) letzterAufstieg.month letzterAufstieg.day

/-- The enum `Entgeltgruppe` (`E_10 = 10`, `E_13 = 13`). -/
inductive Entgeltgruppe where
  | E_10 | E_13
deriving DecidableEq, Repr

/-- The frozen dataclass `GuS`: an `Entgeltgruppe` together with a `Stufe`. -/
structure GuS where
  gruppe : Entgeltgruppe
  stufe : Stufe
deriving DecidableEq, Repr

/-- The frozen dataclass `Stelle`: a `GuS` with the date it became effective. -/
structure Stelle where
  gus : GuS
  beginn : Date
deriving DecidableEq, Repr

/-- Outcome of the `while` loop inside `Stelle.am`: either the loop finished
with final step and effective date, or a `date` construction inside the loop
body raised (`dateErr`), or the fuel ran out (`fuelOut`; proved unreachable
for the fuel `Stelle.am` supplies). -/
inductive LoopRes where
  | fuelOut
  | dateErr
  | done (stufe : Stufe) (seit : Date)
deriving DecidableEq, Repr

/-- The `while naechstesSeit <= datum` loop of `Stelle.am`, fuelled.  State
`(neueStufe, neuesSeit, naechstesSeit)` evolves exactly as in the source:
`neuesSeit = naechstesSeit; neueStufe = neueStufe.naechste();
naechstesSeit = neueStufe.naechsterAufstieg(naechstesSeit)`. -/
def amLoop : Nat → Date → Stufe → Date → Date → LoopRes
  | 0, _, _, _, _ => .fuelOut
  | fuel + 1, datum, neueStufe, neuesSeit, naechstesSeit =>
    if Date.le naechstesSeit datum then
      match (Stufe.naechste neueStufe).naechsterAufstieg naechstesSeit with
      | none => .dateErr
      | some nxt => amLoop fuel datum (Stufe.naechste neueStufe) naechstesSeit nxt
    else
      .done neueStufe neuesSeit

/-- Fuel that suffices for `amLoop` (proved in `amLoop_ne_fuelOut`): the loop
runs at most once per year between the first due date and the target date. -/
def fuelFor (datum n0 : Date) : Nat := datum.year + 1 - n0.year + 1

/-- `Stelle.am`: project the position to the date `datum`.  `none` where the
Python code raises `ValueError` from `date` construction. -/
def Stelle.am (st : Stelle) (datum : Date) : Option Stelle :=
  match Stufe.naechsterAufstieg st.gus.stufe st.beginn with
  | none => none
  | some n0 =>
    match amLoop (fuelFor datum n0) datum st.gus.stufe st.beginn n0 with
    | .fuelOut => none
    | .dateErr => none
    | .done neueStufe neuesSeit =>
      some (if neueStufe = st.gus.stufe then st
            else ⟨⟨st.gus.gruppe, neueStufe⟩, neuesSeit⟩)

/-- The frozen dataclass `Gehalt`: monthly gross pay (`brutto`) and annual
bonus (`sonderzahlung`).  Python `Decimal` values are embedded as exact
rationals (`Decimal` compares and stores numerically exactly; the default
context's 28-significant-digit precision is never reached by the
two-operand products considered here before the final 2-digit quantize). -/
structure Gehalt where
  brutto : ℚ
  sonderzahlung : ℚ
deriving DecidableEq, Repr

/-- The helper `dec`: quantize to two decimal places with `ROUND_HALF_UP`
(ties away from zero, as `decimal.ROUND_HALF_UP` specifies). -/
def dec (euros : ℚ) : ℚ :=
  if 0 ≤ euros then (⌊100 * euros + 1 / 2⌋ : ℚ) / 100
  else -((⌊100 * (-euros) + 1 / 2⌋ : ℚ) / 100)

/-- The class constant `ÖtvKosten.arbeitgeberKostenZuschlag = 0.3` is a
binary float, and `ÖtvKosten.__init__` sets
`self.zuschlag = Decimal(1. + arbeitgeberKostenZuschlag)`.  The float sum
`1. + 0.3` is the IEEE-754 double nearest to 1.3, whose exact value is
`5854679515581645 / 2^52 = 1.3000000000000000444089209850062616…`, and
`Decimal(float)` converts that value exactly. -/
def zuschlag : ℚ := 5854679515581645 / 2 ^ 52

/-- The factor the specification prescribes instead: exactly
`1 + 0.30 = 1.30`.  Kept separate from the source-derived `zuschlag` for
comparison. -/
def zuschlagSpec : ℚ := 13 / 10

/-- The ledger `ÖtvKosten`: its dict `gehälter` mapping `(jahr, gus)` to
`Gehalt`, embedded as an association list (entries are never overwritten,
so first-match lookup over prepended entries models the dict exactly). -/
structure OetvKosten where
  gehaelter : List ((Int × GuS) × Gehalt)
deriving DecidableEq, Repr

/-- Dict lookup `self.gehälter[key]`: `none` where Python raises `KeyError`. -/
def lookupGehalt : List ((Int × GuS) × Gehalt) → Int × GuS → Option Gehalt
  | [], _ => none
  | (k, v) :: rest, key => if k = key then some v else lookupGehalt rest key

/-- `ÖtvKosten.mitGehalt`: asserts the key `(jahr, gus)` is absent — the
failing assertion reports `jahr`, `gus` and the already-stored value, which
the error payload carries — and otherwise stores `gehalt` under the key. -/
def OetvKosten.mitGehalt (k : OetvKosten) (jahr : Int) (gus : GuS)
    (gehalt : Gehalt) : Except (Int × GuS × Gehalt) OetvKosten :=
  match lookupGehalt k.gehaelter (jahr, gus) with
  | some vorhanden => .error (jahr, gus, vorhanden)
  | none => .ok ⟨((jahr, gus), gehalt) :: k.gehaelter⟩

/-- `ÖtvKosten.summeMonatlich`: `dec(self.gehälter[(jahr, gus)].brutto *
self.zuschlag)`; `none` where the dict lookup raises `KeyError`. -/
def OetvKosten.summeMonatlich (k : OetvKosten) (jahr : Int) (gus : GuS) :
    Option ℚ :=
  (lookupGehalt k.gehaelter (jahr, gus)).map (fun g => dec (g.brutto * zuschlag))

/-- `ÖtvKosten.sonderzahlung`: returns the stored annual bonus verbatim;
`none` where the dict lookup raises `KeyError`. -/
def OetvKosten.sonderzahlung (k : OetvKosten) (jahr : Int) (gus : GuS) :
    Option ℚ :=
  (lookupGehalt k.gehaelter (jahr, gus)).map Gehalt.sonderzahlung

theorem Date.le_refl (a : Date) : Date.le a a := by
  simp [Date.le]

theorem Date.le_trans {a b c : Date} (h1 : Date.le a b) (h2 : Date.le b c) :
    Date.le a c := by
  unfold Date.le at *; omega

theorem Date.le_of_lt {a b : Date} (h : Date.lt a b) : Date.le a b := by
  unfold Date.le Date.lt at *; omega

theorem Date.not_le_iff {a b : Date} : ¬ Date.le a b ↔ Date.lt b a := by
  unfold Date.le Date.lt; omega

theorem Date.year_le_of_le {a b : Date} (h : Date.le a b) : a.year ≤ b.year := by
  unfold Date.le at h; omega

theorem Stufe.one_le_jahre (s : Stufe) : 1 ≤ s.jahre := by
  cases s <;> decide

theorem Stufe.value_le_naechste (s : Stufe) : s.value ≤ s.naechste.value := by
  cases s <;> decide

/-- Shape of a successful `nächsterAufstieg`: same month and day, year
advanced by the step's interval, and the result is a valid date. -/
theorem Stufe.naechsterAufstieg_some {s : Stufe} {d d' : Date}
    (h : s.naechsterAufstieg d = some d') :
    d'.year = d.year + s.jahre ∧ d'.month = d.month ∧ d'.day = d.day ∧
      Date.valid d' := by
  unfold Stufe.naechsterAufstieg mkDate at h
  by_cases hv : Date.valid ⟨d.year + s.jahre, d.month, d.day⟩
  · rw [if_pos hv] at h
    injection h with h
    subst h
    exact ⟨rfl, rfl, rfl, hv⟩
  · rw [if_neg hv] at h
    cases h

/-- A successful `nächsterAufstieg` is strictly later than its argument. -/
theorem Stufe.lt_naechsterAufstieg {s : Stufe} {d d' : Date}
    (h : s.naechsterAufstieg d = some d') : Date.lt d d' ∧ d.year < d'.year := by
  obtain ⟨hy, -, -, -⟩ := Stufe.naechsterAufstieg_some h
  have hj := Stufe.one_le_jahre s
  constructor
  · left; omega
  · omega

/-- With fuel at least `datum.year + 2 - nächstesSeit.year`, the loop never
runs out of fuel: each iteration advances `nächstesSeit` by at least one
year, and the loop only continues while `nächstesSeit.year ≤ datum.year`. -/
theorem amLoop_ne_fuelOut :
    ∀ (fuel : Nat) (datum : Date) (st : Stufe) (seit nxt : Date),
      1 ≤ fuel → datum.year + 2 ≤ fuel + nxt.year →
      amLoop fuel datum st seit nxt ≠ .fuelOut := by
  intro fuel
  induction fuel with
  | zero => intro _ _ _ _ h; omega
  | succ n ih =>
    intro datum st seit nxt _ hb
    by_cases hle : Date.le nxt datum
    · cases hna : (Stufe.naechste st).naechsterAufstieg nxt with
      | none => simp [amLoop, hle, hna]
      | some nxt' =>
        simp only [amLoop, if_pos hle, hna]
        have hy := (Stufe.naechsterAufstieg_some hna).1
        have hj := Stufe.one_le_jahre (Stufe.naechste st)
        have hyd := Date.year_le_of_le hle
        exact ih datum (Stufe.naechste st) nxt nxt' (by omega) (by omega)
    · simp [amLoop, hle]

/-- `fuelFor` always grants at least one loop entry. -/
theorem fuelFor_pos (datum n0 : Date) : 1 ≤ fuelFor datum n0 := by
  unfold fuelFor; omega

/-- The fuel `Stelle.am` supplies satisfies the bound of
`amLoop_ne_fuelOut`. -/
theorem fuelFor_suffices (datum n0 : Date) :
    datum.year + 2 ≤ fuelFor datum n0 + n0.year := by
  unfold fuelFor; omega

/-- When the loop condition fails at entry, the loop returns its state. -/
theorem amLoop_exit {fuel : Nat} (h1 : 1 ≤ fuel) {datum : Date} {st : Stufe}
    {seit nxt : Date} (h : ¬ Date.le nxt datum) :
    amLoop fuel datum st seit nxt = .done st seit := by
  cases fuel with
  | zero => omega
  | succ n => simp [amLoop, h]

/-- Invariant of a completed loop run, assuming the entry invariant
`nächstesSeit = neueStufe.nächsterAufstieg(neuesSeit)`: the final step is
reached from the entry step by iterated `nächste`, its ordinal value does
not drop, the effective date does not move backwards, the recomputed next
due date at the final state exists and lies strictly after the target, and
either the state is unchanged or the final effective date is at most the
target date. -/
theorem amLoop_done_spec :
    ∀ (fuel : Nat) (datum : Date) (st : Stufe) (seit nxt : Date)
      (st' : Stufe) (seit' : Date),
      Stufe.naechsterAufstieg st seit = some nxt →
      amLoop fuel datum st seit nxt = .done st' seit' →
      (∃ k, st' = Stufe.naechste^[k] st) ∧
      st.value ≤ st'.value ∧
      Date.le seit seit' ∧
      (∃ n', Stufe.naechsterAufstieg st' seit' = some n' ∧ ¬ Date.le n' datum) ∧
      ((st' = st ∧ seit' = seit) ∨ Date.le seit' datum) := by
  intro fuel
  induction fuel with
  | zero => intro datum st seit nxt st' seit' _ h2; simp [amLoop] at h2
  | succ n ih =>
    intro datum st seit nxt st' seit' h1 h2
    by_cases hle : Date.le nxt datum
    · cases hna : (Stufe.naechste st).naechsterAufstieg nxt with
      | none => simp [amLoop, hle, hna] at h2
      | some nxt2 =>
        simp only [amLoop, if_pos hle, hna] at h2
        obtain ⟨⟨k, hk⟩, hval, hle2, hnext, hlast⟩ :=
          ih datum (Stufe.naechste st) nxt nxt2 st' seit' hna h2
        refine ⟨⟨k + 1, ?_⟩, ?_, ?_, hnext, ?_⟩
        · rw [Function.iterate_succ_apply]; exact hk
        · exact le_trans (Stufe.value_le_naechste st) hval
        · exact Date.le_trans
            (Date.le_of_lt (Stufe.lt_naechsterAufstieg h1).1) hle2
        · rcases hlast with ⟨-, hseit⟩ | hdat
          · subst hseit; exact Or.inr hle
          · exact Or.inr hdat
    · rw [amLoop_exit (by omega) hle] at h2
      injection h2 with hst hseit
      subst hst; subst hseit
      exact ⟨⟨0, rfl⟩, le_refl _, Date.le_refl _, ⟨nxt, h1, hle⟩,
        Or.inl ⟨rfl, rfl⟩⟩

/-- A completed loop run never lowers the step's ordinal value (no entry
invariant needed). -/
theorem amLoop_done_value_le :
    ∀ (fuel : Nat) (datum : Date) (st : Stufe) (seit nxt : Date)
      (st' : Stufe) (seit' : Date),
      amLoop fuel datum st seit nxt = .done st' seit' →
      st.value ≤ st'.value := by
  intro fuel
  induction fuel with
  | zero => intro datum st seit nxt st' seit' h; simp [amLoop] at h
  | succ n ih =>
    intro datum st seit nxt st' seit' h
    by_cases hle : Date.le nxt datum
    · cases hna : (Stufe.naechste st).naechsterAufstieg nxt with
      | none => simp [amLoop, hle, hna] at h
      | some nxt2 =>
        simp only [amLoop, if_pos hle, hna] at h
        exact le_trans (Stufe.value_le_naechste st)
          (ih datum (Stufe.naechste st) nxt nxt2 st' seit' h)
    · rw [amLoop_exit (by omega) hle] at h
      injection h with hst _
      subst hst; exact le_refl _

/-- Two completed runs of the loop from the same entry state: the run with
the earlier target date ends at a step ordinal no larger than the run with
the later target date. -/
theorem amLoop_mono :
    ∀ (fuel1 : Nat) (fuel2 : Nat) (d1 d2 : Date) (st : Stufe) (seit nxt : Date)
      (st1 : Stufe) (seit1 : Date) (st2 : Stufe) (seit2 : Date),
      Date.le d1 d2 →
      amLoop fuel1 d1 st seit nxt = .done st1 seit1 →
      amLoop fuel2 d2 st seit nxt = .done st2 seit2 →
      st1.value ≤ st2.value := by
  intro fuel1
  induction fuel1 with
  | zero => intro _ _ _ _ _ _ _ _ _ _ _ h1 _; simp [amLoop] at h1
  | succ n ih =>
    intro fuel2 d1 d2 st seit nxt st1 seit1 st2 seit2 h12 h1 h2
    by_cases hle1 : Date.le nxt d1
    · have hle2 : Date.le nxt d2 := Date.le_trans hle1 h12
      cases fuel2 with
      | zero => simp [amLoop] at h2
      | succ m =>
        cases hna : (Stufe.naechste st).naechsterAufstieg nxt with
        | none => simp [amLoop, hle1, hna] at h1
        | some nxt2 =>
          simp only [amLoop, if_pos hle1, hna] at h1
          simp only [amLoop, if_pos hle2, hna] at h2
          exact ih m d1 d2 (Stufe.naechste st) nxt nxt2 st1 seit1 st2 seit2
            h12 h1 h2
    · rw [amLoop_exit (by omega) hle1] at h1
      injection h1 with hst _
      subst hst
      exact amLoop_done_value_le fuel2 d2 st seit nxt st2 seit2 h2

/-- Unfolds `Stelle.am` on a completed loop run. -/
theorem am_done {p : Stelle} {datum n0 : Date} {st' : Stufe} {seit' : Date}
    (hn : Stufe.naechsterAufstieg p.gus.stufe p.beginn = some n0)
    (hl : amLoop (fuelFor datum n0) datum p.gus.stufe p.beginn n0 =
      .done st' seit') :
    p.am datum =
      some (if st' = p.gus.stufe then p else ⟨⟨p.gus.gruppe, st'⟩, seit'⟩) := by
  simp only [Stelle.am, hn, hl]

/-- Inversion of a successful `Stelle.am`. -/
theorem am_eq_some {p : Stelle} {datum : Date} {q : Stelle}
    (h : p.am datum = some q) :
    ∃ n0 st' seit',
      Stufe.naechsterAufstieg p.gus.stufe p.beginn = some n0 ∧
      amLoop (fuelFor datum n0) datum p.gus.stufe p.beginn n0 =
        .done st' seit' ∧
      q.gus.stufe = st' ∧ q.gus.gruppe = p.gus.gruppe ∧
      (q = p ∨ (st' ≠ p.gus.stufe ∧ q = ⟨⟨p.gus.gruppe, st'⟩, seit'⟩)) := by
  cases hn : Stufe.naechsterAufstieg p.gus.stufe p.beginn with
  | none => simp only [Stelle.am, hn] at h; cases h
  | some n0 =>
    cases hl : amLoop (fuelFor datum n0) datum p.gus.stufe p.beginn n0 with
    | fuelOut => simp only [Stelle.am, hn, hl] at h; cases h
    | dateErr => simp only [Stelle.am, hn, hl] at h; cases h
    | done st' seit' =>
      simp only [Stelle.am, hn, hl] at h
      injection h with h
      refine ⟨n0, st', seit', rfl, hl, ?_, ?_, ?_⟩
      · by_cases heq : st' = p.gus.stufe
        · rw [if_pos heq] at h; subst h; exact heq.symm
        · rw [if_neg heq] at h; subst h; rfl
      · by_cases heq : st' = p.gus.stufe
        · rw [if_pos heq] at h; subst h; rfl
        · rw [if_neg heq] at h; subst h; rfl
      · by_cases heq : st' = p.gus.stufe
        · rw [if_pos heq] at h; exact Or.inl h.symm
        · rw [if_neg heq] at h; exact Or.inr ⟨heq, h.symm⟩

theorem Date.lt_trans {a b c : Date} (h1 : Date.lt a b) (h2 : Date.lt b c) :
    Date.lt a c := by
  unfold Date.lt at *; omega

theorem Stufe.value_le_six (s : Stufe) : s.value ≤ Stufe.sechs.value := by
  cases s <;> decide

theorem Stufe.eq_sechs_of_value (s : Stufe) (h : 6 ≤ s.value) : s = .sechs := by
  cases s <;> first | rfl | (exfalso; revert h; decide)

/-- Claim C1: advancement-boundary semantics — the loop condition compares
with `<=`, not `<`.  The step `zwei` has a 2-year interval; a position at
`zwei` effective 2020-01-01 projected to 2021-12-31 is returned unchanged,
and projected to 2022-01-01 it advances exactly once — to
`zwei.nächste` — with new effective date 2022-01-01. -/
theorem C1_advancement_boundary :
    Stufe.zwei.jahre = 2 ∧
    Stelle.am ⟨⟨.E_10, .zwei⟩, ⟨2020, 1, 1⟩⟩ ⟨2021, 12, 31⟩ =
      some ⟨⟨.E_10, .zwei⟩, ⟨2020, 1, 1⟩⟩ ∧
    Stelle.am ⟨⟨.E_10, .zwei⟩, ⟨2020, 1, 1⟩⟩ ⟨2022, 1, 1⟩ =
      some ⟨⟨.E_10, Stufe.naechste .zwei⟩, ⟨2022, 1, 1⟩⟩ := by
  refine ⟨rfl, by decide, by decide⟩

/-- Claim C2 counterexample: the claim's unconditional "if `d` is earlier
than the effective-start date, `am` returns the identical Position" fails:
for the position at step `eins` effective on the valid date 2020-02-29 and
the earlier target 2019-01-01, the code first computes
`date(2021, 2, 29)`, which raises `ValueError` (modelled `none`), so the
position is not returned. -/
theorem C2_counterexample :
    Date.valid ⟨2020, 2, 29⟩ ∧
    Date.lt ⟨2019, 1, 1⟩ ⟨2020, 2, 29⟩ ∧
    Stelle.am ⟨⟨.E_10, .eins⟩, ⟨2020, 2, 29⟩⟩ ⟨2019, 1, 1⟩ = none := by
  refine ⟨by decide, by decide, by decide⟩

/-- Claim C2 (amended): identity on no change, whenever the projection's
date arithmetic is defined.  (a) If a successful projection returns a
position with the original step, that position is `p` itself.  (b) If the
target date lies before `p.beginn` and the first next-advancement date is
defined, the projection returns `p` itself.  (c) If `p` is already at the
maximum step, any successful projection returns `p` unchanged, no matter
how late the target date. -/
theorem C2_identity_on_no_change :
    (∀ (p : Stelle) (d : Date) (q : Stelle), p.am d = some q →
      q.gus.stufe = p.gus.stufe → q = p) ∧
    (∀ (p : Stelle) (d : Date), Date.lt d p.beginn →
      (∃ n0, Stufe.naechsterAufstieg p.gus.stufe p.beginn = some n0) →
      p.am d = some p) ∧
    (∀ (p : Stelle) (d : Date) (q : Stelle), p.gus.stufe = .sechs →
      p.am d = some q → q = p) := by
  refine ⟨?_, ?_, ?_⟩
  · intro p d q h hstufe
    obtain ⟨n0, st', seit', hn, hl, hqst, hqgr, hq⟩ := am_eq_some h
    rcases hq with rfl | ⟨hne, rfl⟩
    · rfl
    · exact absurd (hqst ▸ hstufe) hne
  · intro p d hlt ⟨n0, hn⟩
    have hn0 : ¬ Date.le n0 d :=
      Date.not_le_iff.mpr
        (Date.lt_trans hlt (Stufe.lt_naechsterAufstieg hn).1)
    have hd := am_done hn (amLoop_exit (fuelFor_pos d n0) hn0)
    rw [if_pos rfl] at hd
    exact hd
  · intro p d q hsechs h
    obtain ⟨n0, st', seit', hn, hl, hqst, hqgr, hq⟩ := am_eq_some h
    rcases hq with rfl | ⟨hne, rfl⟩
    · rfl
    · exfalso
      have hval := amLoop_done_value_le _ _ _ _ _ _ _ hl
      rw [hsechs] at hval
      exact hne ((Stufe.eq_sechs_of_value st' hval).trans hsechs.symm)

/-- Claim C2 witness: part (b) applied to a position at step `zwei`
effective 2020-01-01 and the earlier target date 2019-06-01. -/
theorem C2_identity_witness :
    Stelle.am ⟨⟨.E_10, .zwei⟩, ⟨2020, 1, 1⟩⟩ ⟨2019, 6, 1⟩ =
      some ⟨⟨.E_10, .zwei⟩, ⟨2020, 1, 1⟩⟩ :=
  C2_identity_on_no_change.2.1 ⟨⟨.E_10, .zwei⟩, ⟨2020, 1, 1⟩⟩ ⟨2019, 6, 1⟩
    (by decide) ⟨⟨2022, 1, 1⟩, by decide⟩

/-- Claim C3: monotonicity of projection — whenever both projections are
defined, a target date no later than another yields a step ordinal no
larger. -/
theorem C3_monotonicity (p : Stelle) (d1 d2 : Date) (q1 q2 : Stelle)
    (h12 : Date.le d1 d2) (h1 : p.am d1 = some q1) (h2 : p.am d2 = some q2) :
    q1.gus.stufe.value ≤ q2.gus.stufe.value := by
  obtain ⟨n0, st1, seit1, hn1, hl1, hq1, -, -⟩ := am_eq_some h1
  obtain ⟨n0', st2, seit2, hn2, hl2, hq2, -, -⟩ := am_eq_some h2
  rw [hn1] at hn2
  injection hn2 with hn2
  subst hn2
  rw [hq1, hq2]
  exact amLoop_mono _ _ d1 d2 p.gus.stufe p.beginn n0 st1 seit1 st2 seit2
    h12 hl1 hl2

/-- Claim C3 witness: a position at step `eins` effective 2020-01-01,
projected to 2020-06-01 (no advancement, step `eins`) and to 2023-06-01
(two advancements, step `drei`). -/
theorem C3_monotonicity_witness :
    Stufe.value (Stufe.eins) ≤ Stufe.value (Stufe.drei) :=
  C3_monotonicity ⟨⟨.E_10, .eins⟩, ⟨2020, 1, 1⟩⟩ ⟨2020, 6, 1⟩ ⟨2023, 6, 1⟩
    ⟨⟨.E_10, .eins⟩, ⟨2020, 1, 1⟩⟩ ⟨⟨.E_10, .drei⟩, ⟨2023, 1, 1⟩⟩
    (by decide) (by decide) (by decide)

/-- Claim C4: idempotence of projection — projecting the result of
`p.am(d)` again to the same date `d` yields that same result (stated over
`Option` so that a raising projection propagates on both sides). -/
theorem C4_idempotent (p : Stelle) (d : Date) :
    (p.am d).bind (fun q => q.am d) = p.am d := by
  cases h : p.am d with
  | none => rfl
  | some q =>
    show q.am d = some q
    obtain ⟨n0, st', seit', hn, hl, hqst, hqgr, hq⟩ := am_eq_some h
    obtain ⟨-, -, -, ⟨n', hn', hgt⟩, -⟩ := amLoop_done_spec _ _ _ _ _ _ _ hn hl
    rcases hq with rfl | ⟨hne, rfl⟩
    · exact h
    · have hq2 := @am_done ⟨⟨p.gus.gruppe, st'⟩, seit'⟩ d n' st' seit' hn'
        (amLoop_exit (fuelFor_pos d n') hgt)
      rw [if_pos rfl] at hq2
      exact hq2

/-- Claim C5 counterexample: the claim's unconditional "the effective-start
date of the result lies between p's original effective-start date and d
(inclusive)" fails when no advancement is due and `d` lies before the
original date: projecting the position effective 2020-01-01 to 2019-01-01
returns it unchanged, and 2020-01-01 is not `<=` 2019-01-01. -/
theorem C5_counterexample :
    Stelle.am ⟨⟨.E_10, .eins⟩, ⟨2020, 1, 1⟩⟩ ⟨2019, 1, 1⟩ =
      some ⟨⟨.E_10, .eins⟩, ⟨2020, 1, 1⟩⟩ ∧
    ¬ Date.le ⟨2020, 1, 1⟩ ⟨2019, 1, 1⟩ := by
  refine ⟨by decide, by decide⟩

/-- Claim C5 (amended): projection postcondition invariant.  A successful
projection keeps the Grade, reaches its step from the original step by
iterating the single-step successor (hence never skipping and, the
successor being capped, never exceeding the maximum step), never lowers
the step ordinal, and never moves the effective-start date backwards; and
whenever at least one advancement occurred (result ≠ p) the new
effective-start date also lies at most the target date `d`. -/
theorem C5_projection_invariant (p : Stelle) (d : Date) (q : Stelle)
    (h : p.am d = some q) :
    q.gus.gruppe = p.gus.gruppe ∧
    (∃ k, q.gus.stufe = Stufe.naechste^[k] p.gus.stufe) ∧
    p.gus.stufe.value ≤ q.gus.stufe.value ∧
    q.gus.stufe.value ≤ Stufe.sechs.value ∧
    Date.le p.beginn q.beginn ∧
    (q ≠ p → Date.le q.beginn d) := by
  obtain ⟨n0, st', seit', hn, hl, hqst, hqgr, hq⟩ := am_eq_some h
  obtain ⟨⟨k, hk⟩, hval, hbegin, -, hlast⟩ := amLoop_done_spec _ _ _ _ _ _ _ hn hl
  refine ⟨hqgr, ⟨k, by rw [hqst, hk]⟩, by rw [hqst]; exact hval,
    Stufe.value_le_six _, ?_, ?_⟩
  · rcases hq with rfl | ⟨-, rfl⟩
    · exact Date.le_refl _
    · exact hbegin
  · intro hne
    rcases hq with rfl | ⟨hne2, rfl⟩
    · exact absurd rfl hne
    · rcases hlast with ⟨hst, -⟩ | hd
      · exact absurd hst hne2
      · exact hd

/-- Claim C5 witness: one advancement, from step `eins` effective
2020-01-01 projected to 2021-06-01 giving step `zwei` effective
2021-01-01. -/
theorem C5_projection_witness :
    (⟨⟨.E_10, .zwei⟩, ⟨2021, 1, 1⟩⟩ : Stelle).gus.gruppe =
      (⟨⟨.E_10, .eins⟩, ⟨2020, 1, 1⟩⟩ : Stelle).gus.gruppe ∧
    (∃ k, (⟨⟨.E_10, .zwei⟩, ⟨2021, 1, 1⟩⟩ : Stelle).gus.stufe =
      Stufe.naechste^[k] (⟨⟨.E_10, .eins⟩, ⟨2020, 1, 1⟩⟩ : Stelle).gus.stufe) ∧
    (⟨⟨.E_10, .eins⟩, ⟨2020, 1, 1⟩⟩ : Stelle).gus.stufe.value ≤
      (⟨⟨.E_10, .zwei⟩, ⟨2021, 1, 1⟩⟩ : Stelle).gus.stufe.value ∧
    (⟨⟨.E_10, .zwei⟩, ⟨2021, 1, 1⟩⟩ : Stelle).gus.stufe.value ≤
      Stufe.sechs.value ∧
    Date.le (⟨⟨.E_10, .eins⟩, ⟨2020, 1, 1⟩⟩ : Stelle).beginn
      (⟨⟨.E_10, .zwei⟩, ⟨2021, 1, 1⟩⟩ : Stelle).beginn ∧
    ((⟨⟨.E_10, .zwei⟩, ⟨2021, 1, 1⟩⟩ : Stelle) ≠
        ⟨⟨.E_10, .eins⟩, ⟨2020, 1, 1⟩⟩ →
      Date.le (⟨⟨.E_10, .zwei⟩, ⟨2021, 1, 1⟩⟩ : Stelle).beginn ⟨2021, 6, 1⟩) :=
  C5_projection_invariant ⟨⟨.E_10, .eins⟩, ⟨2020, 1, 1⟩⟩ ⟨2021, 6, 1⟩
    ⟨⟨.E_10, .zwei⟩, ⟨2021, 1, 1⟩⟩ (by decide)

/-- Claim C6 counterexample: the multiplier is not exactly 1.30.  The code
stores `Decimal(1. + 0.3)`, the exact value of the binary double nearest
to 1.3 (slightly above 1.30).  For the storable gross amount
0.049999999999999999 the code returns 0.07, while multiplying by exactly
1.30 and rounding half-up gives 0.06. -/
theorem C6_counterexample :
    OetvKosten.summeMonatlich
        ⟨[((2024, ⟨.E_10, .eins⟩), ⟨49999999999999999 / 10 ^ 18, 400⟩)]⟩
        2024 ⟨.E_10, .eins⟩ = some (7 / 100) ∧
    dec ((49999999999999999 / 10 ^ 18 : ℚ) * zuschlagSpec) = 6 / 100 ∧
    (7 / 100 : ℚ) ≠ 6 / 100 := by
  refine ⟨?_, by norm_num [dec, zuschlagSpec], by norm_num⟩
  norm_num [OetvKosten.summeMonatlich, lookupGehalt, dec, zuschlag]

/-- Claim C6 (amended): `summeMonatlich` returns the stored gross monthly
base multiplied by the stored surcharge factor `Decimal(1. + 0.3)` — the
exact binary-double value `13/10 + 1/(5·2^52) ≈ 1.30000000000000004`, not
exactly 1.30 — rounded half-up to 2 decimal places; the annual bonus does
not enter the formula.  For a stored gross of 3000.00 the result is
exactly 3900.00. -/
theorem C6_monthly_total (k : OetvKosten) (jahr : Int) (gus : GuS) (g : Gehalt)
    (h : lookupGehalt k.gehaelter (jahr, gus) = some g) :
    k.summeMonatlich jahr gus = some (dec (g.brutto * zuschlag)) ∧
    zuschlag = zuschlagSpec + 1 / (5 * 2 ^ 52) ∧
    dec ((3000 : ℚ) * zuschlag) = 3900 := by
  refine ⟨?_, by norm_num [zuschlag, zuschlagSpec], by norm_num [dec, zuschlag]⟩
  unfold OetvKosten.summeMonatlich
  rw [h]
  rfl

/-- Claim C6 witness: a ledger storing gross 3000.00 (and bonus 400) for
(2024, E13 step eins). -/
theorem C6_monthly_total_witness :
    OetvKosten.summeMonatlich ⟨[((2024, ⟨.E_13, .eins⟩), ⟨3000, 400⟩)]⟩
        2024 ⟨.E_13, .eins⟩ = some (dec ((3000 : ℚ) * zuschlag)) ∧
    zuschlag = zuschlagSpec + 1 / (5 * 2 ^ 52) ∧
    dec ((3000 : ℚ) * zuschlag) = 3900 :=
  C6_monthly_total ⟨[((2024, ⟨.E_13, .eins⟩), ⟨3000, 400⟩)]⟩ 2024
    ⟨.E_13, .eins⟩ ⟨3000, 400⟩ (by decide)

/-- Claim C7: write-once ledger with atomic failure.  If the key
`(jahr, gus)` already has an entry, `mitGehalt` fails with an error
reporting the year, the grade+step and the existing value (the embedding
returns the untouched caller state implicitly: no new store is produced,
so the stored value remains intact); if the key has no entry, it stores
the given figures, leaving every other key's lookup unchanged. -/
theorem C7_write_once (k : OetvKosten) (jahr : Int) (gus : GuS) (g : Gehalt) :
    (∀ g0, lookupGehalt k.gehaelter (jahr, gus) = some g0 →
      k.mitGehalt jahr gus g = .error (jahr, gus, g0)) ∧
    (lookupGehalt k.gehaelter (jahr, gus) = none →
      ∃ k', k.mitGehalt jahr gus g = .ok k' ∧
        lookupGehalt k'.gehaelter (jahr, gus) = some g ∧
        ∀ key, key ≠ (jahr, gus) →
          lookupGehalt k'.gehaelter key = lookupGehalt k.gehaelter key) := by
  constructor
  · intro g0 h
    unfold OetvKosten.mitGehalt
    rw [h]
  · intro h
    refine ⟨⟨((jahr, gus), g) :: k.gehaelter⟩, ?_, ?_, ?_⟩
    · unfold OetvKosten.mitGehalt
      rw [h]
    · simp [lookupGehalt]
    · intro key hkey
      simp only [lookupGehalt]
      rw [if_neg (fun heq => hkey heq.symm)]

/-- Claim C7 witness: a second `mitGehalt` for the already-populated key
(2024, E10 step eins) fails, reporting year, grade+step and the stored
figures. -/
theorem C7_write_once_witness :
    OetvKosten.mitGehalt ⟨[((2024, ⟨.E_10, .eins⟩), ⟨3000, 400⟩)]⟩ 2024
        ⟨.E_10, .eins⟩ ⟨3100, 500⟩ =
      .error (2024, ⟨.E_10, .eins⟩, ⟨3000, 400⟩) :=
  (C7_write_once ⟨[((2024, ⟨.E_10, .eins⟩), ⟨3000, 400⟩)]⟩ 2024
    ⟨.E_10, .eins⟩ ⟨3100, 500⟩).1 ⟨3000, 400⟩ (by decide)

/-- Claim C8: termination of the advancement loop.  Every step's interval
is at least one year, so every successful `nächsterAufstieg` is strictly
later (its year strictly larger); hence with the fuel `Stelle.am`
supplies — one unit per year up to the target plus slack — the loop never
exhausts its fuel, for every state including the maximum step. -/
theorem C8_termination :
    (∀ s : Stufe, 1 ≤ s.jahre) ∧
    (∀ (s : Stufe) (d d' : Date), s.naechsterAufstieg d = some d' →
      Date.lt d d' ∧ d.year < d'.year) ∧
    (∀ (datum : Date) (st : Stufe) (seit nxt : Date),
      amLoop (fuelFor datum nxt) datum st seit nxt ≠ .fuelOut) := by
  refine ⟨Stufe.one_le_jahre, fun s d d' h => Stufe.lt_naechsterAufstieg h, ?_⟩
  intro datum st seit nxt
  exact amLoop_ne_fuelOut _ datum st seit nxt (fuelFor_pos datum nxt)
    (fuelFor_suffices datum nxt)

/-- Claim C8 witness: the strict-increase part at step `eins` from
2000-03-01, and fuel-sufficiency at the maximum step `sechs` with a target
24 years past the pending due date. -/
theorem C8_termination_witness :
    (Date.lt ⟨2000, 3, 1⟩ ⟨2001, 3, 1⟩ ∧ (2000 : Nat) < 2001) ∧
    amLoop (fuelFor ⟨2030, 3, 1⟩ ⟨2006, 3, 1⟩) ⟨2030, 3, 1⟩ .sechs
      ⟨2000, 3, 1⟩ ⟨2006, 3, 1⟩ ≠ .fuelOut :=
  ⟨C8_termination.2.1 .eins ⟨2000, 3, 1⟩ ⟨2001, 3, 1⟩ (by decide),
   C8_termination.2.2 ⟨2030, 3, 1⟩ .sechs ⟨2000, 3, 1⟩ ⟨2006, 3, 1⟩⟩

/-- Claim C9 counterexample: the next-advancement-date computation is not
error-free for every last-advancement date: from the valid date 2020-02-29
with the 1-year step `eins`, `date(2021, 2, 29)` raises `ValueError`
(modelled `none`). -/
theorem C9_counterexample :
    Date.valid ⟨2020, 2, 29⟩ ∧
    Stufe.eins.naechsterAufstieg ⟨2020, 2, 29⟩ = none := by
  refine ⟨by decide, by decide⟩

/-- Claim C9 (amended): the next-step and interval lookups are total pure
functions; the next-advancement-date computation succeeds — yielding the
same month and day with the year advanced by the step's interval — for
every valid last-advancement date whose shifted year stays within `date`'s
range, except a February 29 whose shifted year is not a leap year (a
February 29 shifted to a leap year succeeds); only the shifted-date
construction can fail. -/
theorem C9_payscale_totality (s : Stufe) (d : Date) (hv : Date.valid d)
    (hfeb : d.month = 2 ∧ d.day = 29 → isLeap (d.year + s.jahre))
    (hy : d.year + s.jahre ≤ 9999) :
    s.naechsterAufstieg d = some ⟨d.year + s.jahre, d.month, d.day⟩ := by
  have hval : Date.valid ⟨d.year + s.jahre, d.month, d.day⟩ := by
    obtain ⟨h1, h2, h3, h4, h5, h6⟩ := hv
    refine ⟨show 1 ≤ d.year + s.jahre by omega, hy, h3, h4, h5, ?_⟩
    show d.day ≤ daysInMonth (d.year + s.jahre) d.month
    unfold daysInMonth at h6 ⊢
    by_cases hm : d.month = 2
    · rw [if_pos hm] at h6 ⊢
      by_cases hd : d.day = 29
      · rw [if_pos (hfeb ⟨hm, hd⟩)]
        omega
      · split at h6 <;> split <;> omega
    · rw [if_neg hm] at h6 ⊢
      exact h6
  unfold Stufe.naechsterAufstieg mkDate
  rw [if_pos hval]

/-- Claim C9 witness: step `eins` from 2020-03-01 advances to 2021-03-01,
and the 4-year step `vier` from 2020-02-29 advances to the valid leap-year
date 2024-02-29. -/
theorem C9_payscale_totality_witness :
    Stufe.eins.naechsterAufstieg ⟨2020, 3, 1⟩ = some ⟨2021, 3, 1⟩ ∧
    Stufe.vier.naechsterAufstieg ⟨2020, 2, 29⟩ = some ⟨2024, 2, 29⟩ :=
  ⟨C9_payscale_totality .eins ⟨2020, 3, 1⟩ (by decide) (by decide) (by decide),
   C9_payscale_totality .vier ⟨2020, 2, 29⟩ (by decide) (by decide) (by decide)⟩

/-- Claim C10: concrete advancement intervals — each step's interval in
years equals its ordinal value (1,…,6), the maximum step is its own
successor, and its 6-year interval drives the date iteration once the cap
is reached: from `sechs` effective 2000-03-01 the loop walks the due dates
2006, 2012, 2018, 2024, 2030 and stops at final effective date
2030-03-01. -/
theorem C10_intervals :
    (∀ s : Stufe, s.jahre = s.value) ∧
    Stufe.eins.jahre = 1 ∧ Stufe.zwei.jahre = 2 ∧ Stufe.drei.jahre = 3 ∧
    Stufe.vier.jahre = 4 ∧ Stufe.fuenf.jahre = 5 ∧ Stufe.sechs.jahre = 6 ∧
    Stufe.naechste .sechs = .sechs ∧
    Stufe.sechs.naechsterAufstieg ⟨2020, 1, 1⟩ = some ⟨2026, 1, 1⟩ ∧
    amLoop (fuelFor ⟨2030, 3, 1⟩ ⟨2006, 3, 1⟩) ⟨2030, 3, 1⟩ .sechs
      ⟨2000, 3, 1⟩ ⟨2006, 3, 1⟩ = .done .sechs ⟨2030, 3, 1⟩ := by
  refine ⟨fun s => rfl, rfl, rfl, rfl, rfl, rfl, rfl, rfl, by decide, by decide⟩
